import Mathlib

/-!
Shallow embedding of the client logic of `src/App.js` from the
aixplain-market-research repository, together with proofs of the
specification claims about it.

The embedding models the JavaScript in `App.js` directly:
* `formatTime` (App.js lines 32-36),
* `downloadReport` (lines 38-78),
* `handleSubmit` (lines 80-115),
* `pollForResults` (lines 117-174), as a per-poll step function and as a
  timer/cancellation machine,
* the results rendering branch (lines 371-480),
* the citation display transform (lines 409-440).

JavaScript truthiness of possibly-absent string fields is modelled by
`Option String` with the empty string counted falsy, and `a || b` on such a
field by `jsOr`.
-/

namespace MarketApp

/-- JavaScript `\s` / `String.prototype.trim` whitespace class. -/
def jsSpace (c : Char) : Bool :=
  c == ' ' || c == '\t' || c == '\n' || c == '\r' || c == '\x0b' || c == '\x0c' ||
  c.toNat == 0xA0 || c.toNat == 0x1680 ||
  (0x2000 ≤ c.toNat && c.toNat ≤ 0x200A) ||
  c.toNat == 0x2028 || c.toNat == 0x2029 || c.toNat == 0x202F || c.toNat == 0x205F ||
  c.toNat == 0x3000 || c.toNat == 0xFEFF

/-- JavaScript truthiness of a possibly-absent string field: absent/null and
the empty string are falsy. -/
def jsTruthy : Option String → Bool
  | none => false
  | some s => s ≠ ""

/-- JavaScript `field || defaultString` on a possibly-absent string field. -/
def jsOr (o : Option String) (d : String) : String :=
  match o with
  | none => d
  | some s => if s = "" then d else s

/-- `str.padStart(n, c)` from JavaScript (App.js line 35 uses
`secs.toString().padStart(2, '0')`). -/
def padStart (s : String) (n : Nat) (c : Char) : String :=
  String.mk (List.replicate (n - s.length) c) ++ s

/-- `formatTime` (App.js lines 32-36): minutes are `Math.floor(seconds / 60)`,
seconds are `seconds % 60` zero-padded to two digits. -/
def formatTime (seconds : Nat) : String :=
  toString (seconds / 60) ++ ":" ++ padStart (toString (seconds % 60)) 2 '0'

/-- `formData.product.replace(/\s+/g, '_')` (App.js lines 50-56): every
maximal whitespace run becomes a single underscore.  The flag records whether
the previous character was part of a whitespace run. -/
def underscoreAux (prevSpace : Bool) : List Char → List Char
  | [] => []
  | c :: rest =>
    if jsSpace c then
      if prevSpace then underscoreAux true rest
      else '_' :: underscoreAux true rest
    else c :: underscoreAux false rest

def underscoreWs (s : String) : String :=
  String.mk (underscoreAux false s.toList)

/-- Outcome of one `downloadReport(format)` call (App.js lines 38-78): either
the early-return alert (no fetch issued, no state touched), or a fetch of a
download URL with a target filename. -/
inductive DownloadAction where
  | alerted (msg : String)
  | requested (url filename : String)
deriving DecidableEq, Repr

/-- `downloadReport` (App.js lines 38-78) up to its first network effect:
guard on a falsy `currentJobId`, else build `url`/`filename` from the format
and fetch.  An unrecognised format leaves both strings empty, and the fetch of
the empty URL is still attempted, exactly as in the source. -/
def downloadReport (currentJobId : Option String) (format : String)
    (apiBaseUrl product : String) : DownloadAction :=
  if jsTruthy currentJobId = false then
    .alerted "No job ID available for download"
  else
    let jid := currentJobId.getD ""
    let p := underscoreWs product
    if format = "pdf" then
      .requested (apiBaseUrl ++ "/download/" ++ jid ++ ".pdf") ("analysis_" ++ p ++ ".pdf")
    else if format = "markdown" then
      .requested (apiBaseUrl ++ "/download/" ++ jid ++ ".md") ("analysis_" ++ p ++ ".md")
    else if format = "citations" then
      .requested (apiBaseUrl ++ "/download/" ++ jid ++ "/citations.json")
        ("citations_" ++ p ++ ".json")
    else
      .requested "" ""

/-- The payload fields of `jobData.result` that the client consumes
(`markdown` at App.js line 133, `citations` at 404-409, `script_used` at 380,
all spread into the results object at line 134). -/
structure ResultData where
  markdown : Option String := none
  citations : Option (List String) := none
  script_used : Option String := none
deriving DecidableEq, Repr

/-- The job record returned by `GET /results/{jobId}` as the client reads it
(App.js lines 124-146): `status`, `target`, `result`, `error`. -/
structure JobData where
  status : String
  target : Option String := none
  result : Option ResultData := none
  error : Option String := none
deriving DecidableEq, Repr

/-- The `results` state object of the client (set at App.js lines 108, 112,
130-135, 140-143, 154-157, 166; read by the rendering at lines 371-480). -/
structure Results where
  status : String
  error : Option String := none
  product_name : Option String := none
  report : Option String := none
  citations : Option (List String) := none
  script_used : Option String := none
deriving DecidableEq, Repr

/-- The failure results object `{ status: 'failed', error: e }`. -/
def failedResults (e : String) : Results :=
  { status := "failed", error := some e }

/-- The success results object of App.js lines 130-135:
`{ status: 'success', product_name: jobData.target,
   report: jobData.result.markdown || 'Analysis completed', ...jobData.result }`. -/
def successResults (jd : JobData) : Results :=
  { status := "success"
    product_name := jd.target
    report := some (jsOr (jd.result.bind ResultData.markdown) "Analysis completed")
    citations := jd.result.bind ResultData.citations
    script_used := jd.result.bind ResultData.script_used }

/-- One observed outcome of the `fetch` inside `poll` (App.js line 123):
either a parsed job record, or the fetch/json threw (caught at line 160). -/
inductive PollResponse where
  | ok (jobData : JobData)
  | fetchError
deriving DecidableEq, Repr

/-- What one execution of `poll` does after consuming its response: land the
job in a final results object without rescheduling (`finish`), or schedule
the next poll with the updated attempt counter (`next`). -/
inductive StepResult where
  | finish (pollCount : Nat) (res : Results)
  | next (pollCount : Nat)
deriving DecidableEq, Repr

/-- `maxPolls` (App.js line 118). -/
def maxPolls : Nat := 60

/-- One execution of the `poll` callback body (App.js lines 121-170) with the
current `pollCount`, consuming one poll response. -/
def pollStep (pollCount : Nat) (r : PollResponse) : StepResult :=
  match r with
  | .ok jd =>
    if jd.status = "completed" ∧ jd.result.isSome = true then
      .finish pollCount (successResults jd)
    else if jd.status = "failed" then
      .finish pollCount (failedResults (jsOr jd.error "Analysis failed"))
    else if pollCount + 1 < maxPolls then
      .next (pollCount + 1)
    else
      .finish (pollCount + 1) (failedResults "Analysis timed out. Please try again.")
  | .fetchError =>
    if pollCount + 1 < maxPolls then
      .next (pollCount + 1)
    else
      .finish (pollCount + 1) (failedResults "Lost connection to server")

/-- Whether a poll response is terminal for the poller: a `completed` status
with a truthy result payload, or a `failed` status.  Fetch errors and all
other statuses leave the loop running. -/
def terminalResponse : PollResponse → Bool
  | .ok jd => decide ((jd.status = "completed" ∧ jd.result.isSome = true) ∨ jd.status = "failed")
  | .fetchError => false

/-- The whole polling loop run against a stream of responses, starting from a
given `pollCount`: the final results object (`none` when the stream ran out
while a further poll was still scheduled) and the number of poll attempts
actually made. -/
def runPoll (pollCount : Nat) : List PollResponse → Option Results × Nat
  | [] => (none, 0)
  | r :: rest =>
    match pollStep pollCount r with
    | .finish _ res => (some res, 1)
    | .next pc2 =>
      let o := runPoll pc2 rest
      (o.1, o.2 + 1)

/-- The two rendering branches of the results card (App.js lines 371-480):
`results.status === 'success' ? <success markup> : <failure markup>`, where
the failure branch displays `results.error || 'Unknown error occurred'`
(line 475). -/
inductive RenderedView where
  | successView (res : Results)
  | failureView (message : String)
deriving DecidableEq, Repr

def renderResults (res : Results) : RenderedView :=
  if res.status = "success" then .successView res
  else .failureView (jsOr res.error "Unknown error occurred")

/-- The client-side scheduling state of `pollForResults`: the attempt
counter, whether a `setTimeout(poll, ...)` is pending, whether the user has
cancelled (navigated away / tore the component down), and the `results` /
`isAnalyzing` state variables. -/
structure PollerState where
  pollCount : Nat
  timerPending : Bool
  cancelled : Bool
  results : Option Results
  isAnalyzing : Bool
deriving DecidableEq, Repr

/-- State right after `pollForResults(jobId)` ran (App.js line 173): the
first poll is scheduled via `setTimeout(poll, 2000)`. -/
def initPoller : PollerState :=
  { pollCount := 0, timerPending := true, cancelled := false
    results := none, isAnalyzing := true }

/-- Environment events for the scheduling machine: the user cancels
(navigates away), or a pending timer fires and `poll` consumes a response. -/
inductive PollEvent where
  | cancel
  | timerFires (r : PollResponse)
deriving DecidableEq, Repr

/-- One scheduling step.  The Bool records whether a status fetch was issued
during the event.  `App.js` registers no teardown for the poll timer and
`poll` consults no cancellation flag (lines 117-174 contain no `clearTimeout`
and no cancelled check), so `cancel` clears nothing, and a pending timer that
fires always runs `poll`, whose body begins with the status fetch. -/
def machineStep (s : PollerState) (e : PollEvent) : PollerState × Bool :=
  match e with
  | .cancel => ({ s with cancelled := true }, false)
  | .timerFires r =>
    if s.timerPending then
      match pollStep s.pollCount r with
      | .finish n res =>
        ({ s with pollCount := n, timerPending := false
                  results := some res, isAnalyzing := false }, true)
      | .next n => ({ s with pollCount := n, timerPending := true }, true)
    else (s, false)

/-- Number of status fetches issued along a sequence of events. -/
def countFetches (s : PollerState) : List PollEvent → Nat
  | [] => 0
  | e :: es =>
    let step := machineStep s e
    (if step.2 then 1 else 0) + countFetches step.1 es

/-- The only client-side guard on an empty research target: the `required`
attribute on the query text input (App.js line 235).  HTML form validation
blocks submission exactly when the field's value is the empty string;
whitespace passes.  `handleSubmit` itself (lines 80-115) performs no
target validation. -/
def formAllowsSubmit (target : String) : Bool := target ≠ ""

/-- The body sent to `POST /run-agent` (App.js lines 94-98). -/
structure RunAgentRequest where
  target : String
  mode : String
  api_key : String
deriving DecidableEq, Repr

/-- The client submission path up to the network call: the form guard, then
the request body `{ target: formData.product, mode: 'quick',
api_key: formData.apiKey }` exactly as built at App.js lines 94-98 (the
target is not trimmed). -/
def clientSubmit (product apiKey : String) : Option RunAgentRequest :=
  if formAllowsSubmit product then
    some { target := product, mode := "quick", api_key := apiKey }
  else none

/-- The submission response as `handleSubmit` consumes it (App.js lines
101-114): HTTP `response.ok`, and the parsed body's `job_id` and `error`
fields; or the fetch/json threw (caught at line 111). -/
inductive SubmitResponse where
  | received (respOk : Bool) (job_id : Option String) (error : Option String)
  | connFailure
deriving DecidableEq, Repr

/-- What `handleSubmit` does with the response: start polling the job id, or
set a failed results object. -/
inductive SubmitOutcome where
  | startPolling (jobId : String)
  | failed (res : Results)
deriving DecidableEq, Repr

/-- App.js lines 103-114: `if (response.ok && data.job_id)` start polling,
else `setResults({status:'failed', error: data.error || 'Failed to start
analysis'})`; a thrown fetch gives `{status:'failed', error:'Connection
failed'}`. -/
def submitStep : SubmitResponse → SubmitOutcome
  | .received respOk job_id err =>
    if respOk && jsTruthy job_id then
      .startPolling (job_id.getD "")
    else
      .failed (failedResults (jsOr err "Failed to start analysis"))
  | .connFailure => .failed (failedResults "Connection failed")

/-- Characters allowed inside a matched URL: the regex character class
`[^\s<>"')\]]` of App.js line 411, complemented. -/
def urlChar (c : Char) : Bool :=
  !(jsSpace c || c == '<' || c == '>' || c == '"' || c == '\'' || c == ')' || c == ']')

/-- The regex `https?:\/\/[^\s<>"')\]]+` tried at one position: `http`, an
optional greedy `s`, `://`, then a non-empty greedy run of allowed
characters.  Returns the matched text. -/
def matchUrlAt (l : List Char) : Option (List Char) :=
  if "https://".toList.isPrefixOf l then
    if ((l.drop 8).takeWhile urlChar).isEmpty then none
    else some ("https://".toList ++ (l.drop 8).takeWhile urlChar)
  else if "http://".toList.isPrefixOf l then
    if ((l.drop 7).takeWhile urlChar).isEmpty then none
    else some ("http://".toList ++ (l.drop 7).takeWhile urlChar)
  else none

/-- `citation.match(/https?:\/\/[^\s<>"')\]]+/)` (App.js line 411): the
leftmost match of the URL regex. -/
def firstUrlMatch : List Char → Option (List Char)
  | [] => none
  | c :: rest =>
    match matchUrlAt (c :: rest) with
    | some u => some u
    | none => firstUrlMatch rest

/-- `citation.replace(url, '')` (App.js line 416): remove the first
occurrence of the string `u`. -/
def removeFirst : List Char → List Char → List Char
  | [], _ => []
  | c :: rest, u =>
    if u.isPrefixOf (c :: rest) then (c :: rest).drop u.length
    else c :: removeFirst rest u

/-- `.replace(/\s*-\s*$/, '')` (App.js line 416): strip a trailing
whitespace-dash-whitespace suffix when present (the leftmost such suffix,
i.e. maximal whitespace before the dash), else leave the string unchanged. -/
def stripDashEnd (l : List Char) : List Char :=
  match l.reverse.dropWhile jsSpace with
  | '-' :: r2 => (r2.dropWhile jsSpace).reverse
  | _ => l

/-- JavaScript `String.prototype.trim` (App.js line 416). -/
def jsTrim (l : List Char) : List Char :=
  ((l.dropWhile jsSpace).reverse.dropWhile jsSpace).reverse

/-- One rendered citation entry (App.js lines 409-440): a link with display
text, or the verbatim citation text. -/
inductive CitationView where
  | link (url text : String)
  | plain (text : String)
deriving DecidableEq, Repr

/-- The citation display transform of App.js lines 409-440 for the entry at
`index`: extract the first URL; if found, the display text is the citation
with that URL removed, trailing whitespace-dash stripped and trimmed, falling
back to `Source ${index + 1}` when empty; otherwise display the citation
verbatim. -/
def citationEntry (citation : String) (index : Nat) : CitationView :=
  match firstUrlMatch citation.toList with
  | some u =>
    let cleanText := jsTrim (stripDashEnd (removeFirst citation.toList u))
    let displayText :=
      if cleanText.isEmpty then "Source ".toList ++ (toString (index + 1)).toList
      else cleanText
    .link (String.mk u) (String.mk displayText)
  | none => .plain citation

end MarketApp

namespace MarketApp

theorem jsOr_ne_empty (o : Option String) (d : String) (hd : d ≠ "") :
    jsOr o d ≠ "" := by
  cases o with
  | none => simpa [jsOr] using hd
  | some s =>
    by_cases hs : s = "" <;> simp [jsOr, hs, hd]

theorem jsOr_some (s d : String) (hs : s ≠ "") : jsOr (some s) d = s := by
  simp [jsOr, hs]

theorem terminalResponse_false (jd : JobData)
    (h : terminalResponse (.ok jd) = false) :
    ¬(jd.status = "completed" ∧ jd.result.isSome = true) ∧ jd.status ≠ "failed" := by
  simpa [terminalResponse, not_or] using h

theorem pollStep_next (pc n : Nat) (r : PollResponse)
    (h : pollStep pc r = .next n) : n = pc + 1 ∧ pc + 1 < maxPolls := by
  cases r with
  | fetchError =>
    by_cases hlt : pc + 1 < maxPolls <;> simp [pollStep, hlt] at h
    exact ⟨h.symm, hlt⟩
  | ok jd =>
    by_cases h1 : jd.status = "completed" ∧ jd.result.isSome = true
    · simp [pollStep, h1] at h
    · by_cases h2 : jd.status = "failed"
      · simp [pollStep, h1, h2] at h
      · by_cases hlt : pc + 1 < maxPolls <;> simp [pollStep, h1, h2, hlt] at h
        exact ⟨h.symm, hlt⟩

theorem pollStep_nonTerminal (pc : Nat) (r : PollResponse)
    (hr : terminalResponse r = false) (hlt : pc + 1 < maxPolls) :
    pollStep pc r = .next (pc + 1) := by
  cases r with
  | fetchError => simp [pollStep, hlt]
  | ok jd =>
    obtain ⟨h1, h2⟩ := terminalResponse_false jd hr
    simp [pollStep, h1, h2, hlt]

theorem pollStep_nonTerminal_exhaust (pc : Nat) (r : PollResponse)
    (hr : terminalResponse r = false) (hge : ¬ pc + 1 < maxPolls) :
    pollStep pc r = .finish (pc + 1) (failedResults "Analysis timed out. Please try again.") ∨
    pollStep pc r = .finish (pc + 1) (failedResults "Lost connection to server") := by
  cases r with
  | fetchError => right; simp [pollStep, hge]
  | ok jd =>
    obtain ⟨h1, h2⟩ := terminalResponse_false jd hr
    left; simp [pollStep, h1, h2, hge]

theorem runPoll_attempts_le (rs : List PollResponse) :
    ∀ pc, pc < maxPolls → (runPoll pc rs).2 ≤ maxPolls - pc := by
  induction rs with
  | nil => intro pc _; simp [runPoll]
  | cons r rest ih =>
    intro pc hpc
    cases hstep : pollStep pc r with
    | finish n res =>
      simp [runPoll, hstep]
      omega
    | next n =>
      obtain ⟨hn, hlt⟩ := pollStep_next pc n r hstep
      subst hn
      have hrec := ih (pc + 1) hlt
      simp [runPoll, hstep]
      omega

theorem runPoll_exhaust (rs : List PollResponse) :
    ∀ pc, pc < maxPolls → maxPolls - pc ≤ rs.length →
    (∀ r ∈ rs, terminalResponse r = false) →
    ∃ res, runPoll pc rs = (some res, maxPolls - pc) ∧ res.status = "failed" ∧
      (res.error = some "Analysis timed out. Please try again." ∨
       res.error = some "Lost connection to server") := by
  induction rs with
  | nil =>
    intro pc hpc hlen _
    simp at hlen
    omega
  | cons r rest ih =>
    intro pc hpc hlen hnt
    have hr : terminalResponse r = false := hnt r (by simp)
    have hrest : ∀ x ∈ rest, terminalResponse x = false :=
      fun x hx => hnt x (by simp [hx])
    by_cases hlt : pc + 1 < maxPolls
    · have hstep : pollStep pc r = .next (pc + 1) := pollStep_nonTerminal pc r hr hlt
      obtain ⟨res, heq, hst, herr⟩ := ih (pc + 1) hlt (by simp at hlen ⊢; omega) hrest
      refine ⟨res, ?_, hst, herr⟩
      simp [runPoll, hstep, heq]
      omega
    · rcases pollStep_nonTerminal_exhaust pc r hr hlt with hstep | hstep
      · exact ⟨failedResults "Analysis timed out. Please try again.",
          by simp [runPoll, hstep]; omega, rfl, Or.inl rfl⟩
      · exact ⟨failedResults "Lost connection to server",
          by simp [runPoll, hstep]; omega, rfl, Or.inr rfl⟩

theorem pollStep_finish_cases (pc n : Nat) (r : PollResponse) (res : Results)
    (h : pollStep pc r = .finish n res) :
    (∃ jd, r = .ok jd ∧ res = successResults jd) ∨
    (∃ jd, r = .ok jd ∧ res = failedResults (jsOr jd.error "Analysis failed")) ∨
    res = failedResults "Analysis timed out. Please try again." ∨
    res = failedResults "Lost connection to server" := by
  cases r with
  | fetchError =>
    by_cases hlt : pc + 1 < maxPolls <;> simp [pollStep, hlt] at h
    exact Or.inr (Or.inr (Or.inr h.2.symm))
  | ok jd =>
    by_cases h1 : jd.status = "completed" ∧ jd.result.isSome = true
    · simp [pollStep, h1] at h
      exact Or.inl ⟨jd, rfl, h.2.symm⟩
    · by_cases h2 : jd.status = "failed"
      · simp [pollStep, h1, h2] at h
        exact Or.inr (Or.inl ⟨jd, rfl, h.2.symm⟩)
      · by_cases hlt : pc + 1 < maxPolls <;> simp [pollStep, h1, h2, hlt] at h
        exact Or.inr (Or.inr (Or.inl h.2.symm))

theorem renderResults_failedResults (m : String) :
    renderResults (failedResults m) =
      .failureView (jsOr (some m) "Unknown error occurred") := by
  have hne : ¬((failedResults m).status = "success") := by
    have hst : (failedResults m).status = "failed" := rfl
    rw [hst]
    decide
  simp only [renderResults, if_neg hne]
  rfl

theorem failure_display (m : String) (hm : m ≠ "") :
    (failedResults m).error = some m ∧ m ≠ "" ∧
    renderResults (failedResults m) = .failureView m := by
  refine ⟨rfl, hm, ?_⟩
  have h := renderResults_failedResults m
  rwa [jsOr_some m _ hm] at h

theorem submitStep_failed_cases (resp : SubmitResponse) (res : Results)
    (h : submitStep resp = .failed res) :
    (∃ e, res = failedResults (jsOr e "Failed to start analysis")) ∨
    res = failedResults "Connection failed" := by
  cases resp with
  | connFailure =>
    simp only [submitStep, SubmitOutcome.failed.injEq] at h
    exact Or.inr h.symm
  | received respOk job_id err =>
    simp only [submitStep] at h
    split_ifs at h with hc
    injection h with h2
    exact Or.inl ⟨err, h2.symm⟩

theorem machineStep_no_timer (s : PollerState) (e : PollEvent)
    (h : s.timerPending = false) :
    (machineStep s e).1.timerPending = false ∧ (machineStep s e).2 = false := by
  cases e with
  | cancel => simpa [machineStep] using h
  | timerFires r => simp [machineStep, h]

end MarketApp

open MarketApp

/-- C1: on a single polling run, at most 60 status-check attempts are made —
successful and errored polls count against the same budget — and if 60
attempts all observe a non-terminal response, the poller stops (exactly 60
attempts, final results set) and reports the failure to the user. -/
theorem C1_poll_budget :
    (∀ rs : List PollResponse, (runPoll 0 rs).2 ≤ maxPolls) ∧
    (∀ rs : List PollResponse, maxPolls ≤ rs.length →
      (∀ r ∈ rs, terminalResponse r = false) →
      ∃ res, runPoll 0 rs = (some res, maxPolls) ∧ res.status = "failed" ∧
        (res.error = some "Analysis timed out. Please try again." ∨
         res.error = some "Lost connection to server")) := by
  constructor
  · intro rs
    simpa using runPoll_attempts_le rs 0 (by decide)
  · intro rs hlen hnt
    simpa using runPoll_exhaust rs 0 (by decide) (by simpa using hlen) hnt

/-- Witness for C1 at the concrete stream of 60 failed fetches. -/
theorem C1_poll_budget_witness :
    (runPoll 0 (List.replicate 60 PollResponse.fetchError)).2 ≤ maxPolls ∧
    ∃ res, runPoll 0 (List.replicate 60 PollResponse.fetchError) = (some res, maxPolls) ∧
      res.status = "failed" ∧
      (res.error = some "Analysis timed out. Please try again." ∨
       res.error = some "Lost connection to server") :=
  ⟨C1_poll_budget.1 _, C1_poll_budget.2 _ (by decide) (by decide)⟩

/-- C9: if `downloadReport` is invoked while `currentJobId` is null, it alerts
the user and returns without issuing any network request, for every format and
every surrounding configuration. -/
theorem C9_download_guard (format apiBaseUrl product : String) :
    MarketApp.downloadReport none format apiBaseUrl product =
      MarketApp.DownloadAction.alerted "No job ID available for download" := by
  simp [MarketApp.downloadReport, MarketApp.jsTruthy]

/-- C10: `formatTime s` is the minutes `s / 60` rendered in decimal, a colon,
and the seconds `s % 60` zero-padded to exactly two digits; minutes and
seconds recombine to the counted seconds. -/
theorem C10_formatTime (s : Nat) :
    ∃ m r : Nat,
      MarketApp.formatTime s =
        toString m ++ ":" ++ MarketApp.padStart (toString r) 2 '0' ∧
      (MarketApp.padStart (toString r) 2 '0').length = 2 ∧
      r < 60 ∧ 60 * m + r = s := by
  refine ⟨s / 60, s % 60, rfl, ?_, Nat.mod_lt _ (by norm_num), Nat.div_add_mod s 60⟩
  have h : ∀ r : Nat, r < 60 → (MarketApp.padStart (toString r) 2 '0').length = 2 := by
    decide
  exact h _ (Nat.mod_lt _ (by norm_num))

/-- C2 (corrected) counterexample: a poll response whose status field equals
`completed` but which carries no result payload does not make the poller
succeed — it schedules another poll instead, so the original claim is false
as stated. -/
theorem C2_counterexample :
    (JobData.mk "completed" none none none).status = "completed" ∧
    pollStep 0 (PollResponse.ok (JobData.mk "completed" none none none)) =
      StepResult.next 1 := by
  decide

/-- C2 (amended): for every poll response whose status is `completed` and
which carries a (truthy) result payload, the poller finishes without
rescheduling, the results object is the success object, and the UI renders
the success branch. -/
theorem C2_completed_succeeds (pc : Nat) (jd : JobData)
    (h1 : jd.status = "completed") (h2 : jd.result.isSome = true) :
    pollStep pc (.ok jd) = .finish pc (successResults jd) ∧
    (successResults jd).status = "success" ∧
    renderResults (successResults jd) = .successView (successResults jd) := by
  refine ⟨by simp [pollStep, h1, h2], rfl, ?_⟩
  simp [renderResults, successResults]

/-- Witness for C2's amended theorem at a concrete completed job. -/
theorem C2_completed_succeeds_witness :
    pollStep 0 (PollResponse.ok
        (JobData.mk "completed" (some "Slack") (some ({} : ResultData)) none)) =
      StepResult.finish 0 (successResults
        (JobData.mk "completed" (some "Slack") (some ({} : ResultData)) none)) ∧
    (successResults
        (JobData.mk "completed" (some "Slack") (some ({} : ResultData)) none)).status =
      "success" ∧
    renderResults (successResults
        (JobData.mk "completed" (some "Slack") (some ({} : ResultData)) none)) =
      RenderedView.successView (successResults
        (JobData.mk "completed" (some "Slack") (some ({} : ResultData)) none)) :=
  C2_completed_succeeds 0 _ rfl rfl

/-- C3: a `failed` job status terminates the poller at once with the job's
error (the stored message is the job's own error when present and non-empty),
while a fetch error below the budget does not terminate the machine — it
schedules the next poll with the same attempt counter, against the same
budget, that an ordinary non-terminal poll would use. -/
theorem C3_job_failed_vs_poll_error (pc : Nat) (jd : JobData) :
    (jd.status = "failed" →
      pollStep pc (.ok jd) =
        .finish pc (failedResults (jsOr jd.error "Analysis failed")) ∧
      ∀ e, jd.error = some e → e ≠ "" → jsOr jd.error "Analysis failed" = e) ∧
    (pc + 1 < maxPolls → pollStep pc .fetchError = .next (pc + 1)) ∧
    (terminalResponse (.ok jd) = false → pc + 1 < maxPolls →
      pollStep pc (.ok jd) = .next (pc + 1)) := by
  refine ⟨fun h => ⟨?_, ?_⟩,
    fun hlt => by simp [pollStep, hlt],
    fun hr hlt => pollStep_nonTerminal pc _ hr hlt⟩
  · have h1 : ¬(jd.status = "completed" ∧ jd.result.isSome = true) := by
      rw [h]
      rintro ⟨hc, -⟩
      exact absurd hc (by decide)
    simp [pollStep, h1, h]
  · intro e he hne
    rw [he]
    exact jsOr_some e _ hne

/-- Witness for C3 at a concrete failed job and a concrete fetch error. -/
theorem C3_job_failed_vs_poll_error_witness :
    (pollStep 0 (PollResponse.ok (JobData.mk "failed" none none (some "boom"))) =
       StepResult.finish 0 (failedResults (jsOr (some "boom") "Analysis failed")) ∧
     jsOr (some "boom") "Analysis failed" = "boom") ∧
    pollStep 0 PollResponse.fetchError = StepResult.next 1 :=
  ⟨⟨((C3_job_failed_vs_poll_error 0 (JobData.mk "failed" none none (some "boom"))).1 rfl).1,
    ((C3_job_failed_vs_poll_error 0 (JobData.mk "failed" none none (some "boom"))).1 rfl).2
      "boom" rfl (by decide)⟩,
   (C3_job_failed_vs_poll_error 0 (JobData.mk "failed" none none (some "boom"))).2.1
     (by decide)⟩

/-- C4 (corrected) counterexample: the code has no cancellation mechanism —
after a cancel event (user navigates away) the pending poll timer is not
cleared and still fires its status fetch, so the original claim is false as
stated. -/
theorem C4_counterexample :
    (machineStep initPoller PollEvent.cancel).1.cancelled = true ∧
    (machineStep initPoller PollEvent.cancel).1.timerPending = true ∧
    (machineStep (machineStep initPoller PollEvent.cancel).1
        (PollEvent.timerFires PollResponse.fetchError)).2 = true := by
  decide

/-- C4 (amended): once the poller reaches a terminal outcome the pending
timer is consumed and never rescheduled, and from any state with no pending
timer no status fetch is ever issued again, whatever later events occur. -/
theorem C4_no_poll_after_terminal :
    (∀ (s : PollerState) (r : PollResponse) (n : Nat) (res : Results),
      pollStep s.pollCount r = .finish n res → s.timerPending = true →
      (machineStep s (.timerFires r)).1.timerPending = false ∧
      (machineStep s (.timerFires r)).1.results = some res) ∧
    (∀ s : PollerState, s.timerPending = false →
      ∀ events : List PollEvent, countFetches s events = 0) := by
  constructor
  · intro s r n res hstep hpend
    simp [machineStep, hpend, hstep]
  · intro s hs events
    induction events generalizing s with
    | nil => simp [countFetches]
    | cons e es ih =>
      obtain ⟨h1, h2⟩ := machineStep_no_timer s e hs
      simp [countFetches, h2, ih _ h1]

/-- Witness for C4's amended theorem: a failed job consumes the timer, and a
terminal (timer-free) state issues no fetches on later events. -/
theorem C4_no_poll_after_terminal_witness :
    ((machineStep initPoller
        (PollEvent.timerFires (PollResponse.ok (JobData.mk "failed" none none none)))).1.timerPending
        = false ∧
     (machineStep initPoller
        (PollEvent.timerFires (PollResponse.ok (JobData.mk "failed" none none none)))).1.results
        = some (failedResults (jsOr none "Analysis failed"))) ∧
    countFetches
      (PollerState.mk 3 false true (some (failedResults "Analysis failed")) false)
      [PollEvent.cancel, PollEvent.timerFires PollResponse.fetchError] = 0 :=
  ⟨C4_no_poll_after_terminal.1 initPoller _ 0 _ (by decide) rfl,
   C4_no_poll_after_terminal.2 _ rfl _⟩

/-- C5 (corrected) counterexample: the target `" "` is empty after trimming
whitespace, yet the client's only guard (the HTML `required` attribute)
accepts it and the submission request is built and sent with the untrimmed
target, so the original claim is false as stated. -/
theorem C5_counterexample :
    jsTrim " ".toList = [] ∧
    clientSubmit " " "valid-key" =
      some (RunAgentRequest.mk " " "quick" "valid-key") := by
  decide

/-- C5 (amended): only the exactly-empty target is refused — synchronously,
with no request body built and hence no job created; every non-empty target
(whitespace-only included) passes the guard and is submitted unchanged. -/
theorem C5_empty_guard (product apiKey : String) :
    clientSubmit "" apiKey = none ∧
    (product ≠ "" → ∃ req, clientSubmit product apiKey = some req ∧
      req.target = product ∧ req.api_key = apiKey) := by
  constructor
  · simp [clientSubmit, formAllowsSubmit]
  · intro h
    refine ⟨{ target := product, mode := "quick", api_key := apiKey }, ?_, rfl, rfl⟩
    simp [clientSubmit, formAllowsSubmit, h]

/-- Witness for C5's amended theorem at the empty and a whitespace target. -/
theorem C5_empty_guard_witness :
    clientSubmit "" "k" = none ∧
    (∃ req, clientSubmit " " "k" = some req ∧ req.target = " " ∧ req.api_key = "k") :=
  ⟨(C5_empty_guard "x" "k").1, (C5_empty_guard " " "k").2 (by decide)⟩

/-- C6: the client follows the asynchronous job contract exclusively — it
starts polling exactly on an OK response with a truthy `job_id`, treats any
OK response without a `job_id` as a failed submission, and no submission
response ever produces a success results object (results are only consumed
via polling). -/
theorem C6_async_contract :
    (∀ (respOk : Bool) (job_id err : Option String),
      (respOk && jsTruthy job_id) = true →
      ∃ j, job_id = some j ∧ j ≠ "" ∧
        submitStep (.received respOk job_id err) = .startPolling j) ∧
    (∀ (respOk : Bool) (job_id err : Option String),
      (respOk && jsTruthy job_id) = false →
      submitStep (.received respOk job_id err) =
        .failed (failedResults (jsOr err "Failed to start analysis"))) ∧
    (∀ (resp : SubmitResponse) (res : Results),
      submitStep resp = .failed res → res.status = "failed") ∧
    (∀ (resp : SubmitResponse) (j : String),
      submitStep resp = .startPolling j →
      ∃ (respOk : Bool) (job_id err : Option String),
        resp = .received respOk job_id err ∧ respOk = true ∧
        job_id = some j ∧ j ≠ "") := by
  refine ⟨?_, ?_, ?_, ?_⟩
  · intro respOk job_id err h
    obtain ⟨hok, hj⟩ := Bool.and_eq_true_iff.mp h
    cases job_id with
    | none => simp [jsTruthy] at hj
    | some s =>
      have hs : s ≠ "" := by simpa [jsTruthy] using hj
      exact ⟨s, rfl, hs, by simp [submitStep, h]⟩
  · intro respOk job_id err h
    simp [submitStep, h]
  · intro resp res h
    rcases submitStep_failed_cases resp res h with ⟨e, rfl⟩ | rfl <;> rfl
  · intro resp j h
    cases resp with
    | connFailure => simp [submitStep] at h
    | received respOk job_id err =>
      simp only [submitStep] at h
      split_ifs at h with hc
      injection h with h2
      obtain ⟨hok, hj⟩ := Bool.and_eq_true_iff.mp hc
      cases job_id with
      | none => simp [jsTruthy] at hj
      | some s =>
        have hs : s ≠ "" := by simpa [jsTruthy] using hj
        have hsj : s = j := h2
        subst hsj
        exact ⟨respOk, some s, err, rfl, hok, rfl, hs⟩

/-- Witness for C6 at concrete submission responses. -/
theorem C6_async_contract_witness :
    (∃ j, (some "job-1" : Option String) = some j ∧ j ≠ "" ∧
      submitStep (SubmitResponse.received true (some "job-1") none) =
        SubmitOutcome.startPolling j) ∧
    submitStep (SubmitResponse.received true none none) =
      SubmitOutcome.failed (failedResults (jsOr none "Failed to start analysis")) ∧
    (failedResults "Connection failed").status = "failed" ∧
    (∃ (respOk : Bool) (job_id err : Option String),
      SubmitResponse.received true (some "job-1") none =
        SubmitResponse.received respOk job_id err ∧
      respOk = true ∧ job_id = some "job-1" ∧ "job-1" ≠ "") :=
  ⟨C6_async_contract.1 true (some "job-1") none (by decide),
   C6_async_contract.2.1 true none none (by decide),
   C6_async_contract.2.2.1 SubmitResponse.connFailure (failedResults "Connection failed")
     (by decide),
   C6_async_contract.2.2.2 (SubmitResponse.received true (some "job-1") none) "job-1"
     (by decide)⟩

/-- C7: whenever polling or submission terminates with a non-success results
object, that object carries a non-empty error string (the job's own error or
a default message), and the UI renders it in the failure branch — distinct
from the success branch — displaying exactly that string. -/
theorem C7_failures_surfaced :
    (∀ (pc n : Nat) (r : PollResponse) (res : Results),
      pollStep pc r = .finish n res → res.status ≠ "success" →
      ∃ m, res.error = some m ∧ m ≠ "" ∧
        renderResults res = .failureView m) ∧
    (∀ (resp : SubmitResponse) (res : Results),
      submitStep resp = .failed res →
      ∃ m, res.error = some m ∧ m ≠ "" ∧
        renderResults res = .failureView m) := by
  constructor
  · intro pc n r res h hs
    rcases pollStep_finish_cases pc n r res h with
      ⟨jd, -, rfl⟩ | ⟨jd, -, rfl⟩ | rfl | rfl
    · exact absurd rfl hs
    · exact ⟨_, failure_display _ (jsOr_ne_empty jd.error _ (by decide))⟩
    · exact ⟨_, failure_display _ (by decide)⟩
    · exact ⟨_, failure_display _ (by decide)⟩
  · intro resp res h
    rcases submitStep_failed_cases resp res h with ⟨e, rfl⟩ | rfl
    · exact ⟨_, failure_display _ (jsOr_ne_empty e _ (by decide))⟩
    · exact ⟨_, failure_display _ (by decide)⟩

/-- Witness for C7 at a concrete failed job and a concrete failed
submission. -/
theorem C7_failures_surfaced_witness :
    (∃ m, (failedResults (jsOr none "Analysis failed")).error = some m ∧ m ≠ "" ∧
      renderResults (failedResults (jsOr none "Analysis failed")) =
        RenderedView.failureView m) ∧
    (∃ m, (failedResults "Connection failed").error = some m ∧ m ≠ "" ∧
      renderResults (failedResults "Connection failed") =
        RenderedView.failureView m) :=
  ⟨C7_failures_surfaced.1 0 0 (PollResponse.ok (JobData.mk "failed" none none none))
     (failedResults (jsOr none "Analysis failed")) (by decide) (by decide),
   C7_failures_surfaced.2 SubmitResponse.connFailure (failedResults "Connection failed")
     (by decide)⟩


namespace MarketApp

theorem matchUrlAt_spec (l u : List Char) (h : matchUrlAt l = some u) :
    ("https://".toList.isPrefixOf u = true ∨ "http://".toList.isPrefixOf u = true) ∧
    u ≠ [] ∧ ∃ b, l = u ++ b := by
  unfold matchUrlAt at h
  by_cases h1 : "https://".toList.isPrefixOf l = true
  · rw [if_pos h1] at h
    by_cases hrun : ((l.drop 8).takeWhile urlChar).isEmpty = true
    · rw [if_pos hrun] at h
      exact absurd h (by simp)
    · rw [if_neg hrun] at h
      injection h with hu
      subst hu
      obtain ⟨t, ht⟩ := List.isPrefixOf_iff_prefix.mp h1
      have hdrop : l.drop 8 = t := by
        rw [← ht]
        have h8 : ("https://".toList).length = 8 := rfl
        rw [show (8 : Nat) = ("https://".toList).length from rfl, List.drop_left]
      refine ⟨Or.inl (List.isPrefixOf_iff_prefix.mpr (List.prefix_append _ _)), ?_, ?_⟩
      · intro hc
        rw [List.append_eq_nil] at hc
        exact absurd hc.1 (by decide)
      · refine ⟨(l.drop 8).dropWhile urlChar, ?_⟩
        rw [List.append_assoc, List.takeWhile_append_dropWhile, hdrop, ht]
  · rw [if_neg h1] at h
    by_cases h2 : "http://".toList.isPrefixOf l = true
    · rw [if_pos h2] at h
      by_cases hrun : ((l.drop 7).takeWhile urlChar).isEmpty = true
      · rw [if_pos hrun] at h
        exact absurd h (by simp)
      · rw [if_neg hrun] at h
        injection h with hu
        subst hu
        obtain ⟨t, ht⟩ := List.isPrefixOf_iff_prefix.mp h2
        have hdrop : l.drop 7 = t := by
          rw [← ht]
          rw [show (7 : Nat) = ("http://".toList).length from rfl, List.drop_left]
        refine ⟨Or.inr (List.isPrefixOf_iff_prefix.mpr (List.prefix_append _ _)), ?_, ?_⟩
        · intro hc
          rw [List.append_eq_nil] at hc
          exact absurd hc.1 (by decide)
        · refine ⟨(l.drop 7).dropWhile urlChar, ?_⟩
          rw [List.append_assoc, List.takeWhile_append_dropWhile, hdrop, ht]
    · rw [if_neg h2] at h
      exact absurd h (by simp)

theorem firstUrlMatch_some (l u : List Char) (h : firstUrlMatch l = some u) :
    (∃ a b, l = a ++ u ++ b) ∧
    ("https://".toList.isPrefixOf u = true ∨ "http://".toList.isPrefixOf u = true) ∧
    u ≠ [] := by
  induction l with
  | nil => simp [firstUrlMatch] at h
  | cons c rest ih =>
    cases hm : matchUrlAt (c :: rest) with
    | some v =>
      simp only [firstUrlMatch, hm, Option.some.injEq] at h
      subst h
      obtain ⟨hpre, hne, b, hb⟩ := matchUrlAt_spec _ _ hm
      exact ⟨⟨[], b, by simpa using hb⟩, hpre, hne⟩
    | none =>
      simp only [firstUrlMatch, hm] at h
      obtain ⟨⟨a, b, hab⟩, hpre, hne⟩ := ih h
      exact ⟨⟨c :: a, b, by simp [hab]⟩, hpre, hne⟩

theorem firstUrlMatch_none_iff (l : List Char) :
    firstUrlMatch l = none ↔ ∀ t, t <:+ l → matchUrlAt t = none := by
  induction l with
  | nil =>
    constructor
    · intro _ t ht
      rw [List.suffix_nil] at ht
      subst ht
      decide
    · intro _
      rfl
  | cons c rest ih =>
    constructor
    · intro h t ht
      have hsplit : matchUrlAt (c :: rest) = none ∧ firstUrlMatch rest = none := by
        cases hm : matchUrlAt (c :: rest) with
        | some v =>
          simp only [firstUrlMatch, hm] at h
          exact absurd h (by simp)
        | none =>
          simp only [firstUrlMatch, hm] at h
          exact ⟨rfl, h⟩
      rcases List.suffix_cons_iff.mp ht with rfl | ht'
      · exact hsplit.1
      · exact (ih.mp hsplit.2) t ht'
    · intro hall
      have h1 : matchUrlAt (c :: rest) = none := hall _ (List.suffix_refl _)
      have h2 : firstUrlMatch rest = none :=
        ih.mpr (fun t ht => hall t (ht.trans (List.suffix_cons c rest)))
      simp only [firstUrlMatch, h1, h2]

theorem citation_display_ne_nil (d : List Char) (i : Nat) :
    (if d.isEmpty then "Source ".toList ++ (toString (i + 1)).toList else d) ≠ [] := by
  by_cases hd : d.isEmpty = true
  · rw [if_pos hd]
    intro hc
    rw [List.append_eq_nil] at hc
    exact absurd hc.1 (by decide)
  · rw [if_neg hd]
    intro hc
    exact hd (by simp [hc])

end MarketApp

/-- C8: the citation display transform is total and schema-free.  If the
citation contains no occurrence of the URL regex (checked at every suffix),
it is displayed verbatim.  If a URL is matched, the matched text starts with
`http://` or `https://`, occurs literally inside the citation, becomes the
link target, and the display text is the citation with that URL removed,
trailing whitespace-dash stripped and trimmed, falling back to `Source N`
when that remainder is empty — so the display text is never empty and the
transform never fails. -/
theorem C8_citation_transform (s : String) (i : Nat) :
    (firstUrlMatch s.toList = none →
      citationEntry s i = .plain s ∧
      ∀ t, t <:+ s.toList → matchUrlAt t = none) ∧
    (∀ u, firstUrlMatch s.toList = some u →
      (∃ a b, s.toList = a ++ u ++ b) ∧
      ("https://".toList.isPrefixOf u = true ∨ "http://".toList.isPrefixOf u = true) ∧
      ∃ t, citationEntry s i = .link (String.mk u) t ∧ t ≠ "" ∧
        t.data = (if (jsTrim (stripDashEnd (removeFirst s.toList u))).isEmpty
          then "Source ".toList ++ (toString (i + 1)).toList
          else jsTrim (stripDashEnd (removeFirst s.toList u)))) := by
  constructor
  · intro h
    refine ⟨?_, (firstUrlMatch_none_iff s.toList).mp h⟩
    simp only [citationEntry, h]
  · intro u h
    obtain ⟨hab, hpre, -⟩ := firstUrlMatch_some s.toList u h
    refine ⟨hab, hpre,
      String.mk (if (jsTrim (stripDashEnd (removeFirst s.toList u))).isEmpty
        then "Source ".toList ++ (toString (i + 1)).toList
        else jsTrim (stripDashEnd (removeFirst s.toList u))), ?_, ?_, rfl⟩
    · simp only [citationEntry, h]
    · intro hc
      exact citation_display_ne_nil _ i (congrArg String.data hc)

/-- Witness for C8: a URL-free citation is displayed verbatim, and a
citation with an embedded URL becomes a link with non-empty display text. -/
theorem C8_citation_transform_witness :
    citationEntry "just text" 0 = CitationView.plain "just text" ∧
    ∃ t, citationEntry "Doc - https://ex.com/a - " 3 =
        CitationView.link (String.mk "https://ex.com/a".toList) t ∧ t ≠ "" ∧
      t.data = (if (jsTrim (stripDashEnd (removeFirst "Doc - https://ex.com/a - ".toList
            "https://ex.com/a".toList))).isEmpty
        then "Source ".toList ++ (toString (3 + 1)).toList
        else jsTrim (stripDashEnd (removeFirst "Doc - https://ex.com/a - ".toList
            "https://ex.com/a".toList))) :=
  ⟨((C8_citation_transform "just text" 0).1 (by decide)).1,
   ((C8_citation_transform "Doc - https://ex.com/a - " 3).2 ("https://ex.com/a".toList)
      (by decide)).2.2⟩
